import Mathlib

/-!
# Verification of the @shoelace-style/localize translation-resolution core

Shallow embedding of the current implementation (the `index.ts` embedded in
`src/README.md`, lines 327–532): the translation registry
(`registerTranslation`, lines 372–391), locale parsing
(`LocalizeController.getTranslationData`, lines 460–470), term resolution
(`LocalizeController.term`, lines 492–514), existence checks
(`LocalizeController.exists`, lines 472–490), the effective-locale rule
(`LocalizeController.lang`, lines 452–458), and the consumer-set /
broadcast machinery (`hostConnected` / `hostDisconnected` / `update`,
lines 393–405 and 436–442).

JavaScript values stored as term entries are modelled by `JSValue`;
truthiness follows the JS rules for the modelled carriers.  String
lowercasing is modelled on the ASCII range, which covers locale tags.
-/

namespace Localize

/-- A primitive JavaScript value, as passed in the argument list of a
formatting-function term: `undefined`, a boolean, a number (modelled as
`Int`), or a string. -/
inductive JSPrim where
  | pUndefined : JSPrim
  | pBool (b : Bool) : JSPrim
  | pNum (n : Int) : JSPrim
  | pStr (s : String) : JSPrim
deriving DecidableEq

/-- A JavaScript value as it can appear as a term entry in a translation
object: `undefined`, a boolean, a number (modelled as `Int`), a string, or
a formatting function taking the argument list to a string. -/
inductive JSValue where
  | vUndefined : JSValue
  | vBool (b : Bool) : JSValue
  | vNum (n : Int) : JSValue
  | vStr (s : String) : JSValue
  | vFn (f : List JSPrim → String) : JSValue

/-- JS truthiness of a `JSValue`: `undefined`, `false`, `0` and `""` are
falsy; every function is truthy. -/
def truthy : JSValue → Bool
  | .vUndefined => false
  | .vBool b => b
  | .vNum n => n != 0
  | .vStr s => s != ""
  | .vFn _ => true

/-- ASCII lowercasing of one character (models `toLowerCase` on the
character range occurring in locale tags). -/
def lowerChar (c : Char) : Char := c.toLower

/-- ASCII lowercasing of a string: models `String.prototype.toLowerCase`
as used on locale codes. -/
def toLowerStr (s : String) : String := ⟨s.data.map lowerChar⟩

/-- A `Translation` record: the reserved meta fields `$code`, `$name`,
`$dir` plus the term entries, kept as the object's own-property list
(first match wins on lookup, mirroring a JS object's keys). -/
structure Translation where
  code : String
  name : String
  dir : String
  terms : List (String × JSValue)

/-- Own-property lookup on a translation object's term entries. -/
def findTerm (t : Translation) (key : String) : Option JSValue :=
  (t.terms.find? (fun p => p.1 = key)).map (fun p => p.2)

/-- `t[key]` in JS: the stored value, or `undefined` when the key is
absent. -/
def getTerm (t : Translation) (key : String) : JSValue :=
  (findTerm t key).getD .vUndefined

/-- `{ ...old, ...new }`: a shallow merge where the new translation's
fields win on conflict (the meta fields come from the new record, and a
term key present on the new record shadows the old one). -/
def mergeTranslation (old t : Translation) : Translation :=
  { code := t.code, name := t.name, dir := t.dir, terms := t.terms ++ old.terms }

/-- Lookup in the registry's `Map<string, Translation>`. -/
def mapGet (m : List (String × Translation)) (k : String) : Option Translation :=
  (m.find? (fun p => p.1 = k)).map (fun p => p.2)

/-- `Map.set`: replace the entry in place when the key exists, else
append. -/
def mapSet (m : List (String × Translation)) (k : String) (v : Translation) :
    List (String × Translation) :=
  if m.any (fun p => p.1 = k) then
    m.map (fun p => if p.1 = k then (k, v) else p)
  else
    m ++ [(k, v)]

/-- The module-level mutable state of the registry: the `translations`
map and the `fallback` variable (unset before the first registration). -/
structure RegistryState where
  translations : List (String × Translation)
  fallback : Option Translation

/-- The registry before any registration. -/
def initialState : RegistryState := { translations := [], fallback := none }

/-- One iteration of the loop body of `registerTranslation`
(src/README.md lines 374–388): lowercase the code, merge into an existing
entry or insert, and set the fallback if it is not yet set. -/
def registerOne (st : RegistryState) (t : Translation) : RegistryState :=
  let code := toLowerStr t.code
  let entry :=
    match mapGet st.translations code with
    | some existing => mergeTranslation existing t
    | none => t
  { translations := mapSet st.translations code entry
  , fallback := st.fallback.orElse (fun _ => some t) }

/-- One call `registerTranslation(...translations)`: the loop over the
argument list (the trailing `update()` broadcast is modelled by the
system-level `step`). -/
def registerCall (st : RegistryState) (ts : List Translation) : RegistryState :=
  ts.foldl registerOne st

/-- A sequence of `registerTranslation` calls. -/
def runCalls (st : RegistryState) (calls : List (List Translation)) : RegistryState :=
  calls.foldl registerCall st

/-! ## Locale-tag parsing

`getTranslationData` runs `new Intl.Locale(lang.replace(/_/g, '-'))`.
ECMA-402 requires the tag to be structurally valid per the UTS 35
`unicode_locale_id` grammar (language subtag, optional script, optional
region, variants, extensions); an invalid tag makes the constructor throw
a `RangeError`.  `parseUnicodeLocaleId` models this: it returns the
language and optional region subtags as written (case kept; the caller
lowercases, matching the `toLowerCase()` calls in the source), or `none`
for the thrown `RangeError`.  Alias canonicalization of deprecated
subtags is not modelled. -/

/-- ASCII letter. -/
def isAsciiAlpha (c : Char) : Bool :=
  (('a' ≤ c) && (c ≤ 'z')) || (('A' ≤ c) && (c ≤ 'Z'))

/-- ASCII digit. -/
def isAsciiDigit (c : Char) : Bool := ('0' ≤ c) && (c ≤ '9')

/-- ASCII letter or digit. -/
def isAsciiAlphanum (c : Char) : Bool := isAsciiAlpha c || isAsciiDigit c

/-- `unicode_language_subtag`: 2–3 or 5–8 ASCII letters. -/
def isLanguageSubtag (l : List Char) : Bool :=
  ((2 ≤ l.length && l.length ≤ 3) || (5 ≤ l.length && l.length ≤ 8)) &&
    l.all isAsciiAlpha

/-- `unicode_script_subtag`: exactly 4 ASCII letters. -/
def isScriptSubtag (l : List Char) : Bool :=
  l.length = 4 && l.all isAsciiAlpha

/-- `unicode_region_subtag`: 2 ASCII letters or 3 ASCII digits. -/
def isRegionSubtag (l : List Char) : Bool :=
  (l.length = 2 && l.all isAsciiAlpha) || (l.length = 3 && l.all isAsciiDigit)

/-- `unicode_variant_subtag`: 5–8 alphanumerics, or a digit followed by 3
alphanumerics. -/
def isVariantSubtag (l : List Char) : Bool :=
  (5 ≤ l.length && l.length ≤ 8 && l.all isAsciiAlphanum) ||
    (l.length = 4 && (match l with | c :: _ => isAsciiDigit c | [] => false) &&
      l.all isAsciiAlphanum)

/-- An extension subtag after a singleton: 2–8 alphanumerics. -/
def isExtSubtag (l : List Char) : Bool :=
  2 ≤ l.length && l.length ≤ 8 && l.all isAsciiAlphanum

/-- A private-use subtag after `x`: 1–8 alphanumerics. -/
def isPrivSubtag (l : List Char) : Bool :=
  1 ≤ l.length && l.length ≤ 8 && l.all isAsciiAlphanum

/-- Validates the tail of a locale tag after language/script/region/
variants: a sequence of extension blocks (a singleton followed by one or
more 2–8 alphanumeric subtags), optionally ending with a private-use
block (`x` followed by one or more 1–8 alphanumeric subtags).
`inBlock` records whether a singleton has opened an extension block (so
a bare extension subtag may continue it); `needed` records whether the
previous subtag was a singleton still awaiting its first extension
subtag. -/
def validExtTail : List (List Char) → Bool → Bool → Bool
  | [], _, needed => !needed
  | s :: rest, inBlock, needed =>
    if s = ['x'] || s = ['X'] then
      !needed && rest ≠ [] && rest.all isPrivSubtag
    else if s.length = 1 && s.all isAsciiAlphanum then
      !needed && validExtTail rest true true
    else if isExtSubtag s then
      inBlock && validExtTail rest true false
    else
      false

/-- Splits a character list on `'-'` (empty pieces kept, as in
`String.split`). -/
def splitDash : List Char → List Char → List (List Char)
  | [], acc => [acc.reverse]
  | c :: rest, acc =>
    if c = '-' then acc.reverse :: splitDash rest []
    else splitDash rest (c :: acc)

/-- Structural parse of a normalized (hyphen-separated) locale tag:
returns the language subtag and, when present, the region subtag, or
`none` when the tag is not a well-formed `unicode_locale_id` (the case in
which `new Intl.Locale` throws a `RangeError`). -/
def parseUnicodeLocaleId (s : String) : Option (String × Option String) :=
  match splitDash s.data [] with
  | [] => none
  | lang :: rest =>
    if isLanguageSubtag lang then
      let rest1 :=
        match rest with
        | t :: more => if isScriptSubtag t then more else rest
        | [] => []
      let (regionOpt, rest2) :=
        match rest1 with
        | t :: more => if isRegionSubtag t then (some t, more) else (none, rest1)
        | [] => (none, [])
      let rest3 := rest2.dropWhile isVariantSubtag
      if validExtTail rest3 false false then
        some (⟨lang⟩, regionOpt.map (fun r => ⟨r⟩))
      else
        none
    else
      none

/-- `lang.replace(/_/g, '-')`: every underscore becomes a hyphen
(src/README.md line 463). -/
def normalizeUnderscores (s : String) : String :=
  ⟨s.data.map (fun c => if c = '_' then '-' else c)⟩

/-! ## Resolution (`getTranslationData`, `term`, `exists`) -/

/-- The record returned by `LocalizeController.getTranslationData`
(src/README.md lines 460–470), minus the raw locale object. -/
structure TranslationData where
  language : String
  region : String
  primary : Option Translation
  secondary : Option Translation

/-- `getTranslationData(lang)` (src/README.md lines 460–470): normalize
underscores, parse with `Intl.Locale` (`none` models the thrown
`RangeError`), lowercase language and region (absent region becomes
`''`), and look up the `language-region` and bare `language` entries. -/
def getTranslationData (st : RegistryState) (lang : String) : Option TranslationData :=
  match parseUnicodeLocaleId (normalizeUnderscores lang) with
  | none => none
  | some (langSub, regionSub) =>
    let language := toLowerStr langSub
    let region := toLowerStr (regionSub.getD "")
    some { language := language
         , region := region
         , primary := mapGet st.translations (language ++ "-" ++ region)
         , secondary := mapGet st.translations language }

/-- `entry && entry[key]` as a value: the stored term value when the
entry exists, else `undefined` (which is falsy, like a missing entry in
the short-circuit conjunction). -/
def entryTerm (o : Option Translation) (key : String) : JSValue :=
  match o with
  | some t => getTerm t key
  | none => .vUndefined

/-- The tail of `term`: a formatting function is invoked with the
arguments and its string result returned; any other value is returned as
is (src/README.md lines 509–513). -/
def applyTerm (v : JSValue) (args : List JSPrim) : JSValue :=
  match v with
  | .vFn f => .vStr (f args)
  | _ => v

/-- `LocalizeController.term(key, ...args)` resolution for an explicit
effective locale tag (src/README.md lines 492–514).  `Except.error ()`
models the `RangeError` escaping from `getTranslationData`; an `ok`
result pairs a flag recording whether the missing-term diagnostic
(`console.error`) fired with the returned value (the raw key when no
tier matched). -/
def termResult (st : RegistryState) (lang key : String) (args : List JSPrim) :
    Except Unit (Bool × JSValue) :=
  match getTranslationData st lang with
  | none => .error ()
  | some d =>
    let p := entryTerm d.primary key
    let s := entryTerm d.secondary key
    let f := entryTerm st.fallback key
    if truthy p then .ok (false, applyTerm p args)
    else if truthy s then .ok (false, applyTerm s args)
    else if truthy f then .ok (false, applyTerm f args)
    else .ok (true, .vStr key)

/-- `LocalizeController.exists(key, options)` for an explicit locale tag
and `includeFallback` flag (src/README.md lines 481–489): tiers 1–2
always, the fallback tier only when `includeFallback` is true. -/
def existsResult (st : RegistryState) (lang key : String) (includeFallback : Bool) :
    Except Unit Bool :=
  match getTranslationData st lang with
  | none => .error ()
  | some d =>
    .ok (truthy (entryTerm d.primary key) || truthy (entryTerm d.secondary key) ||
      (includeFallback && truthy (entryTerm st.fallback key)))

/-- `LocalizeController.lang()` (src/README.md lines 456–458): the host's
own `lang` when non-empty (JS `||` on strings), else the ambient
`documentLanguage`, lowercased. -/
def controllerLang (hostLang docLang : String) : String :=
  toLowerStr (if hostLang = "" then docLang else hostLang)

/-- `LocalizeController.term` resolves against the effective locale
`this.lang()` (src/README.md line 494). -/
def controllerTerm (st : RegistryState) (hostLang docLang key : String)
    (args : List JSPrim) : Except Unit (Bool × JSValue) :=
  termResult st (controllerLang hostLang docLang) key args

/-- The `Partial<ExistsOptions>` argument of `exists`: both fields may be
absent. -/
structure ExistsOptions where
  lang : Option String
  includeFallback : Option Bool

/-- `LocalizeController.exists(key, options)` (src/README.md lines
472–490): the locale is `options.lang ?? this.lang()`, and
`includeFallback` defaults to `false` via `{ includeFallback: false,
...options }`. -/
def controllerExists (st : RegistryState) (hostLang docLang key : String)
    (opts : ExistsOptions) : Except Unit Bool :=
  existsResult st (opts.lang.getD (controllerLang hostLang docLang)) key
    (opts.includeFallback.getD false)

/-! ## Consumer set and update broadcast

`connectedElements` is a `Set<HTMLElement>` mutated by `hostConnected` /
`hostDisconnected` (src/README.md lines 436–442); `update()` (lines
393–405) iterates it and calls each element's `requestUpdate`, and is
invoked by `registerTranslation`, by the `MutationObserver` on
`<html dir|lang>`, and manually.  Hosts are modelled by identifiers; the
Locale Signal scalars refreshed by `update` play no role in consumer-set
bookkeeping and are not modelled. -/

/-- The module state relevant to broadcasts: the registry and the
insertion-ordered consumer set. -/
structure SysState where
  registry : RegistryState
  consumers : List Nat

/-- `Set.add`: inserts at the end when not already present. -/
def addConsumer (l : List Nat) (c : Nat) : List Nat :=
  if c ∈ l then l else l ++ [c]

/-- `Set.delete`. -/
def removeConsumer (l : List Nat) (c : Nat) : List Nat :=
  l.filter (fun x => x ≠ c)

/-- An external event hitting the module. -/
inductive Event where
  | register (ts : List Translation)
  | attributeMutation
  | manualUpdate
  | connect (c : Nat)
  | disconnect (c : Nat)

/-- One event step: the next state and the list of consumers whose
`requestUpdate` was invoked.  `register` mutates the registry and then
runs `update()`; an observed attribute mutation and a manual call run
`update()` alone; `connect`/`disconnect` are `hostConnected` /
`hostDisconnected`. -/
def step (s : SysState) : Event → SysState × List Nat
  | .register ts =>
    ({ registry := registerCall s.registry ts, consumers := s.consumers }, s.consumers)
  | .attributeMutation => (s, s.consumers)
  | .manualUpdate => (s, s.consumers)
  | .connect c => ({ s with consumers := addConsumer s.consumers c }, [])
  | .disconnect c => ({ s with consumers := removeConsumer s.consumers c }, [])

/-- Runs a list of events, collecting the broadcast trace (one invocation
list per event). -/
def run (s : SysState) : List Event → SysState × List (List Nat)
  | [] => (s, [])
  | e :: evs =>
    let x := step s e
    let y := run x.1 evs
    (y.1, x.2 :: y.2)

/-! ## Example registry used by the concrete witnesses -/

/-- Example translation: English, the first registered and hence the
fallback. -/
def tEn : Translation :=
  { code := "en", name := "English", dir := "ltr"
  , terms := [("hello", .vStr "Hello"), ("empty", .vStr "Nonempty"),
      ("greetName", .vFn (fun args =>
        match args with
        | [.pStr n] => "Hello, " ++ n
        | _ => "Hello, stranger"))] }

/-- Example translation: Spanish. -/
def tEs : Translation :=
  { code := "es", name := "Espanol", dir := "ltr"
  , terms := [("hello", .vStr "Hola")] }

/-- Example translation: British English, overriding `hello` and storing
the empty string under `empty`. -/
def tEnGB : Translation :=
  { code := "en-GB", name := "English (UK)", dir := "ltr"
  , terms := [("hello", .vStr "Hello, innit"), ("empty", .vStr "")] }

/-- Example translation: French. -/
def tFr : Translation :=
  { code := "fr", name := "Francais", dir := "ltr"
  , terms := [("hello", .vStr "Bonjour")] }

/-- Example registry: `registerTranslation(tEn, tEs, tEnGB, tFr)` from a
fresh module state, so `tEn` is the fallback. -/
def exSt : RegistryState := registerCall initialState [tEn, tEs, tEnGB, tFr]

/-! ## Registry lemmas -/

/-- After one registration step the fallback is the previous fallback, or
the just-registered translation when none was set. -/
theorem registerOne_fallback (st : RegistryState) (t : Translation) :
    (registerOne st t).fallback = st.fallback.or (some t) := by
  cases h : st.fallback <;> simp [registerOne, h, Option.orElse, Option.or]

/-- After a `registerTranslation` call the fallback is the previous
fallback, or the first translation of the call when none was set. -/
theorem registerCall_fallback (ts : List Translation) (st : RegistryState) :
    (registerCall st ts).fallback = st.fallback.or ts.head? := by
  induction ts generalizing st with
  | nil => simp [registerCall]
  | cons t rest ih =>
    show (registerCall (registerOne st t) rest).fallback = _
    rw [ih, registerOne_fallback]
    cases st.fallback <;> simp

/-- Across a sequence of calls the fallback is the previous fallback, or
the first translation ever passed when none was set. -/
theorem runCalls_fallback (calls : List (List Translation)) (st : RegistryState) :
    (runCalls st calls).fallback = st.fallback.or calls.flatten.head? := by
  induction calls generalizing st with
  | nil => simp [runCalls]
  | cons ts rest ih =>
    show (runCalls (registerCall st ts) rest).fallback = _
    rw [ih, registerCall_fallback, List.flatten_cons, List.head?_append]
    cases st.fallback <;> cases ts.head? <;> simp

/-- `find?` over the in-place replacement performed by `mapSet`. -/
theorem find?_map_replace (m : List (String × Translation)) (k : String)
    (v : Translation) :
    (m.map (fun p => if p.1 = k then (k, v) else p)).find? (fun p => p.1 = k) =
      if m.any (fun p => p.1 = k) then some (k, v) else none := by
  induction m with
  | nil => simp
  | cons p rest ih =>
    rw [List.map_cons, List.find?_cons, List.any_cons]
    by_cases hp : p.1 = k
    · simp [hp]
    · rw [if_neg hp, decide_eq_false hp, Bool.false_or]
      exact ih

/-- The entry just written by `Map.set` is the one read back. -/
theorem mapGet_mapSet_self (m : List (String × Translation)) (k : String)
    (v : Translation) :
    mapGet (mapSet m k v) k = some v := by
  by_cases h : m.any (fun p => p.1 = k)
  · unfold mapGet mapSet
    rw [if_pos h, find?_map_replace, if_pos h]
    rfl
  · have hnone : m.find? (fun p => p.1 = k) = none := by
      rw [List.find?_eq_none]
      intro x hx
      exact fun hxk => h (List.any_eq_true.mpr ⟨x, hx, hxk⟩)
    unfold mapGet mapSet
    rw [if_neg h, List.find?_append, hnone]
    simp [List.find?_cons]

/-- Term lookup on a shallow merge `{ ...old, ...t }`: the new record's
entry when present, else the old one's. -/
theorem findTerm_merge (old t : Translation) (k : String) :
    findTerm (mergeTranslation old t) k = (findTerm t k).or (findTerm old k) := by
  unfold findTerm mergeTranslation
  rw [List.find?_append]
  cases t.terms.find? (fun p => p.1 = k) <;> simp

/-! ## Claim theorems -/

/-- C4: The fallback translation is exactly the first translation ever
passed to the first `registerTranslation` call, and subsequent calls
(including re-registrations of the same code) never change it: after any
sequence of calls from the fresh module state, `fallback` is the head of
the concatenation of all translations ever passed. -/
theorem fallback_first_ever_registered (calls : List (List Translation)) :
    (runCalls initialState calls).fallback = calls.flatten.head? := by
  rw [runCalls_fallback]
  rfl

/-- C2: `registerTranslation` merges on duplicate codes: when the
lowercased `$code` already has an entry, the new translation is
shallow-merged into it with new fields winning (the merged entry's term
lookup prefers the new record), and a new code inserts the translation
as a fresh entry. -/
theorem registerTranslation_merges (st : RegistryState) (t : Translation) :
    (∀ old, mapGet st.translations (toLowerStr t.code) = some old →
      mapGet (registerOne st t).translations (toLowerStr t.code) =
        some (mergeTranslation old t) ∧
      ∀ k, findTerm (mergeTranslation old t) k = (findTerm t k).or (findTerm old k)) ∧
    (mapGet st.translations (toLowerStr t.code) = none →
      mapGet (registerOne st t).translations (toLowerStr t.code) = some t) := by
  constructor
  · intro old hold
    refine ⟨?_, fun k => findTerm_merge old t k⟩
    simp only [registerOne, hold]
    exact mapGet_mapSet_self _ _ _
  · intro hnone
    simp only [registerOne, hnone]
    exact mapGet_mapSet_self _ _ _

/-- Example translation carrying only `greet`. -/
def tGreet : Translation :=
  { code := "en", name := "English", dir := "ltr", terms := [("greet", .vStr "Hi")] }

/-- Example translation carrying only `bye`, sharing `tGreet`'s code. -/
def tBye : Translation :=
  { code := "en", name := "English", dir := "ltr", terms := [("bye", .vStr "Bye")] }

/-- Witness for C2: registering `{code:'en', greet:'Hi'}` then
`{code:'en', bye:'Bye'}` yields an `en` entry containing both terms. -/
theorem registerTranslation_merges_witness :
    mapGet (registerOne (registerOne initialState tGreet) tBye).translations "en" =
      some (mergeTranslation tGreet tBye) ∧
    findTerm (mergeTranslation tGreet tBye) "greet" = some (.vStr "Hi") ∧
    findTerm (mergeTranslation tGreet tBye) "bye" = some (.vStr "Bye") := by
  have h := (registerTranslation_merges (registerOne initialState tGreet) tBye).1
    tGreet (by rfl)
  refine ⟨h.1, ?_, ?_⟩
  · rw [h.2 "greet"]
    rfl
  · rw [h.2 "bye"]
    rfl

/-- C1: Three-tier resolution with first match winning, for every locale
tag whose (underscore-normalized) parse yields language `G` and region
`R`: `term` returns the `G-R` entry's value when that entry defines the
key — a value the source treats as defined exactly when truthy — even if
the bare-`G` entry and the fallback also define it; otherwise the
bare-`G` entry's value when defined; otherwise the fallback's value. -/
theorem term_tier_ordering (st : RegistryState) (lang key : String)
    (args : List JSPrim) (G R : String)
    (hparse : parseUnicodeLocaleId (normalizeUnderscores lang) = some (G, some R)) :
    (truthy (entryTerm (mapGet st.translations (toLowerStr G ++ "-" ++ toLowerStr R)) key) = true →
      termResult st lang key args = .ok (false,
        applyTerm (entryTerm (mapGet st.translations (toLowerStr G ++ "-" ++ toLowerStr R)) key) args)) ∧
    (truthy (entryTerm (mapGet st.translations (toLowerStr G ++ "-" ++ toLowerStr R)) key) = false →
      truthy (entryTerm (mapGet st.translations (toLowerStr G)) key) = true →
      termResult st lang key args = .ok (false,
        applyTerm (entryTerm (mapGet st.translations (toLowerStr G)) key) args)) ∧
    (truthy (entryTerm (mapGet st.translations (toLowerStr G ++ "-" ++ toLowerStr R)) key) = false →
      truthy (entryTerm (mapGet st.translations (toLowerStr G)) key) = false →
      truthy (entryTerm st.fallback key) = true →
      termResult st lang key args = .ok (false,
        applyTerm (entryTerm st.fallback key) args)) := by
  have hd : getTranslationData st lang = some
      { language := toLowerStr G
      , region := toLowerStr R
      , primary := mapGet st.translations (toLowerStr G ++ "-" ++ toLowerStr R)
      , secondary := mapGet st.translations (toLowerStr G) } := by
    unfold getTranslationData
    rw [hparse]
    rfl
  refine ⟨fun h1 => ?_, fun h1 h2 => ?_, fun h1 h2 h3 => ?_⟩ <;>
    simp [termResult, hd, h1, *]


/-- Witness for C1: in the example registry, `en-GB` resolves `hello`
from the `en-gb` entry, `es-MX` falls to the bare `es` entry, and `de-DE`
falls to the fallback. -/
theorem term_tier_ordering_witness :
    termResult exSt "en-GB" "hello" [] = .ok (false, .vStr "Hello, innit") ∧
    termResult exSt "es-MX" "hello" [] = .ok (false, .vStr "Hola") ∧
    termResult exSt "de-DE" "hello" [] = .ok (false, .vStr "Hello") := by
  refine ⟨?_, ?_, ?_⟩
  · exact (term_tier_ordering exSt "en-GB" "hello" [] "en" "GB" (by rfl)).1 (by rfl)
  · exact (term_tier_ordering exSt "es-MX" "hello" [] "es" "MX" (by rfl)).2.1
      (by rfl) (by rfl)
  · exact (term_tier_ordering exSt "de-DE" "hello" [] "de" "DE" (by rfl)).2.2
      (by rfl) (by rfl) (by rfl)

/-- C3: `term` never throws for a missing term: when resolution runs (the
tag parses) and none of the three tiers yields a (truthy) value for the
key, `term` reports the `console.error` diagnostic and returns the raw
key itself as the result string. -/
theorem term_missing_returns_key (st : RegistryState) (lang key : String)
    (args : List JSPrim) (d : TranslationData)
    (hd : getTranslationData st lang = some d)
    (h1 : truthy (entryTerm d.primary key) = false)
    (h2 : truthy (entryTerm d.secondary key) = false)
    (h3 : truthy (entryTerm st.fallback key) = false) :
    termResult st lang key args = .ok (true, .vStr key) := by
  simp [termResult, hd, h1, h2, h3]

/-- Witness for C3: `term('xx', 'nonexistent')` returns the string
`'nonexistent'` with the diagnostic flagged, in the example registry
whose fallback lacks the key. -/
theorem term_missing_returns_key_witness :
    termResult exSt "xx" "nonexistent" [] = .ok (true, .vStr "nonexistent") :=
  term_missing_returns_key exSt "xx" "nonexistent" []
    { language := "xx", region := "", primary := none, secondary := none }
    (by rfl) (by rfl) (by rfl) (by rfl)

/-- Underscore normalization is idempotent, so re-normalizing a
normalized tag changes nothing. -/
theorem normalizeUnderscores_idem (s : String) :
    normalizeUnderscores (normalizeUnderscores s) = normalizeUnderscores s := by
  have hfun : ((fun c : Char => if c = '_' then '-' else c) ∘
      (fun c : Char => if c = '_' then '-' else c)) =
      (fun c : Char => if c = '_' then '-' else c) := by
    funext c
    by_cases h : c = '_' <;> simp [h]
  unfold normalizeUnderscores
  simp [List.map_map, hfun]

/-- C6: Underscore and hyphen separators are interchangeable: resolution
first rewrites every `_` to `-`, so `term` and `exists` behave
identically on a tag and on its hyphenated spelling (in particular on
`en_US` and `en-US`). -/
theorem underscore_normalization (st : RegistryState) (lang key : String)
    (args : List JSPrim) (b : Bool) :
    termResult st lang key args = termResult st (normalizeUnderscores lang) key args ∧
    existsResult st lang key b = existsResult st (normalizeUnderscores lang) key b := by
  have h : getTranslationData st (normalizeUnderscores lang) = getTranslationData st lang := by
    unfold getTranslationData
    rw [normalizeUnderscores_idem]
  exact ⟨by simp [termResult, h], by simp [existsResult, h]⟩

/-- C5 (amended): when the underscore-normalized tag still cannot be
parsed as a locale identifier, `term` and `exists` propagate the
`RangeError` thrown by `Intl.Locale` instead of degrading. -/
theorem malformed_tag_throws (st : RegistryState) (lang key : String)
    (args : List JSPrim) (b : Bool)
    (h : parseUnicodeLocaleId (normalizeUnderscores lang) = none) :
    termResult st lang key args = .error () ∧ existsResult st lang key b = .error () := by
  have hd : getTranslationData st lang = none := by
    unfold getTranslationData
    rw [h]
  exact ⟨by simp [termResult, hd], by simp [existsResult, hd]⟩

/-- Counterexample to C5 as stated: the empty tag cannot be parsed into
language and region parts, the fallback does define `hello` (so
degrading to whole-tag-as-language would still resolve it), yet `term`
and `exists` fail with the modelled `RangeError` instead of degrading. -/
theorem malformed_tag_counterexample :
    parseUnicodeLocaleId (normalizeUnderscores "") = none ∧
    truthy (entryTerm exSt.fallback "hello") = true ∧
    termResult exSt "" "hello" [] = Except.error () ∧
    existsResult exSt "" "hello" true = Except.error () :=
  ⟨rfl, rfl, rfl, rfl⟩

/-- Witness for the amended C5, at the concrete malformed tag `''`. -/
theorem malformed_tag_throws_witness :
    termResult exSt "" "hello" [] = Except.error () ∧
    existsResult exSt "" "hello" false = Except.error () :=
  malformed_tag_throws exSt "" "hello" [] false (by rfl)

/-- C7: A consumer's effective locale is its own non-empty `lang`
override, else the ambient document language, lowercased in both cases,
and the controller's `term` resolves against that effective locale. -/
theorem effective_locale_override (st : RegistryState) (hostLang docLang key : String)
    (args : List JSPrim) :
    (hostLang ≠ "" → controllerLang hostLang docLang = toLowerStr hostLang ∧
      controllerTerm st hostLang docLang key args =
        termResult st (toLowerStr hostLang) key args) ∧
    (controllerLang "" docLang = toLowerStr docLang ∧
      controllerTerm st "" docLang key args = termResult st (toLowerStr docLang) key args) := by
  refine ⟨fun h => ?_, ?_⟩
  · simp [controllerLang, controllerTerm, h]
  · simp [controllerLang, controllerTerm]

/-- Witness for C7: with override `fr` and ambient `en` the consumer
resolves `hello` to the French value; with the override cleared it
tracks the ambient `en`. -/
theorem effective_locale_override_witness :
    ("fr" : String) ≠ "" ∧
    controllerTerm exSt "fr" "en" "hello" [] = .ok (false, .vStr "Bonjour") ∧
    controllerTerm exSt "" "en" "hello" [] = .ok (false, .vStr "Hello") := by
  refine ⟨by decide, ?_, ?_⟩
  · rw [((effective_locale_override exSt "fr" "en" "hello" []).1 (by decide)).2]
    rfl
  · rw [(effective_locale_override exSt "" "en" "hello" []).2.2]
    rfl

/-- C8: `exists` always considers tiers 1–2 and considers the fallback
tier only when `includeFallback` is true; the controller defaults
`includeFallback` to `false`.  In this embedding `exists` is a pure
function of the registry state — it returns no updated state, matching
the side-effect-free source. -/
theorem exists_fallback_gating (st : RegistryState) (lang key : String)
    (d : TranslationData) (hd : getTranslationData st lang = some d) :
    existsResult st lang key false =
      .ok (truthy (entryTerm d.primary key) || truthy (entryTerm d.secondary key)) ∧
    existsResult st lang key true =
      .ok (truthy (entryTerm d.primary key) || truthy (entryTerm d.secondary key) ||
        truthy (entryTerm st.fallback key)) ∧
    (∀ hostLang docLang optLang,
      controllerExists st hostLang docLang key
          { lang := optLang, includeFallback := none } =
        existsResult st (optLang.getD (controllerLang hostLang docLang)) key false) := by
  refine ⟨by simp [existsResult, hd], by simp [existsResult, hd],
    fun hostLang docLang optLang => rfl⟩

/-- Witness for C8: in the example registry `de-DE` has no tier-1/2
source for `hello`, so `exists` is false without the fallback and true
with it. -/
theorem exists_fallback_gating_witness :
    existsResult exSt "de-DE" "hello" false = .ok false ∧
    existsResult exSt "de-DE" "hello" true = .ok true := by
  have h := exists_fallback_gating exSt "de-DE" "hello"
    { language := "de", region := "de", primary := none, secondary := none } (by rfl)
  refine ⟨?_, ?_⟩
  · rw [h.1]
    rfl
  · rw [h.2.1]
    rfl

/-- C10: Tier matching tests the truthiness of the stored value, not key
presence: a primary entry whose value for the key is falsy (empty
string, `0`, `false`, `undefined`) is skipped exactly as if the key were
absent, so resolution falls through to the bare-language entry and then
the fallback, for `term` and for `exists` alike. -/
theorem falsy_term_falls_through (st : RegistryState) (lang key : String)
    (args : List JSPrim) (d : TranslationData) (p : Translation)
    (hd : getTranslationData st lang = some d)
    (hp : d.primary = some p)
    (hfalsy : truthy (getTerm p key) = false) :
    termResult st lang key args =
      (if truthy (entryTerm d.secondary key) then
        .ok (false, applyTerm (entryTerm d.secondary key) args)
      else if truthy (entryTerm st.fallback key) then
        .ok (false, applyTerm (entryTerm st.fallback key) args)
      else .ok (true, .vStr key)) ∧
    (∀ b, existsResult st lang key b =
      .ok (truthy (entryTerm d.secondary key) ||
        (b && truthy (entryTerm st.fallback key)))) := by
  have hpe : truthy (entryTerm d.primary key) = false := by
    rw [hp]
    exact hfalsy
  exact ⟨by simp [termResult, hd, hpe], fun b => by simp [existsResult, hd, hpe]⟩

/-- Witness for C10: the `en-gb` entry stores the empty string under
`empty`, so `en-GB` resolution falls through to the base `en` value
rather than returning the empty string. -/
theorem falsy_term_falls_through_witness :
    termResult exSt "en-GB" "empty" [] = .ok (false, .vStr "Nonempty") ∧
    existsResult exSt "en-GB" "empty" false = .ok true := by
  have h := falsy_term_falls_through exSt "en-GB" "empty" []
    { language := "en", region := "gb"
    , primary := some tEnGB, secondary := some tEn } tEnGB
    (by rfl) (by rfl) (by rfl)
  refine ⟨?_, ?_⟩
  · rw [h.1]
    rfl
  · rw [h.2 false]
    rfl

/-! ## Consumer-set lemmas and the detach claim -/

/-- An element absent from the set and different from the added one stays
absent after `Set.add`. -/
theorem not_mem_addConsumer (l : List Nat) (c x : Nat) (hx : x ∉ l) (hne : x ≠ c) :
    x ∉ addConsumer l c := by
  unfold addConsumer
  by_cases h : c ∈ l
  · simpa [h] using hx
  · simp [h, hx, hne]

/-- The deleted element is absent after `Set.delete`. -/
theorem not_mem_removeConsumer_self (l : List Nat) (c : Nat) :
    c ∉ removeConsumer l c := by
  simp [removeConsumer, List.mem_filter]

/-- An absent element stays absent after any `Set.delete`. -/
theorem not_mem_removeConsumer (l : List Nat) (c' x : Nat) (hx : x ∉ l) :
    x ∉ removeConsumer l c' :=
  fun h => hx (List.mem_filter.mp h).1

/-- A consumer outside the set is never invoked by any run that does not
re-connect it, and stays outside the set. -/
theorem run_no_invocation (c : Nat) (evs : List Event) :
    ∀ s : SysState, c ∉ s.consumers → (∀ e ∈ evs, e ≠ Event.connect c) →
      c ∉ (run s evs).1.consumers ∧ ∀ inv ∈ (run s evs).2, c ∉ inv := by
  induction evs with
  | nil => exact fun s hc _ => ⟨hc, by simp [run]⟩
  | cons e rest ih =>
    intro s hc hno
    have hstep1 : c ∉ (step s e).1.consumers := by
      cases e with
      | register ts => exact hc
      | attributeMutation => exact hc
      | manualUpdate => exact hc
      | connect c' =>
        have hne : c ≠ c' := fun h =>
          (hno _ (List.mem_cons_self _ _)) (by rw [h])
        exact not_mem_addConsumer _ _ _ hc hne
      | disconnect c' => exact not_mem_removeConsumer _ _ _ hc
    have hstep2 : c ∉ (step s e).2 := by
      cases e with
      | register ts => exact hc
      | attributeMutation => exact hc
      | manualUpdate => exact hc
      | connect c' => simp [step]
      | disconnect c' => simp [step]
    have hrec := ih (step s e).1 hstep1
      (fun e' h' => hno e' (List.mem_cons_of_mem _ h'))
    refine ⟨hrec.1, ?_⟩
    intro inv hinv
    rw [show (run s (e :: rest)).2 = (step s e).2 :: (run (step s e).1 rest).2 from rfl]
      at hinv
    rcases List.mem_cons.mp hinv with h | h
    · rw [h]
      exact hstep2
    · exact hrec.2 inv h

/-- C9: After `hostDisconnected`, the consumer is removed from the
consumer set, and no subsequent broadcast — from `registerTranslation`,
an observed attribute mutation, or a manual `update()` — ever invokes its
re-render trigger again, as long as it does not re-connect. -/
theorem detach_no_stale_invocations (s : SysState) (c : Nat) (evs : List Event)
    (hno : ∀ e ∈ evs, e ≠ Event.connect c) :
    c ∉ (step s (Event.disconnect c)).1.consumers ∧
    ∀ inv ∈ (run (step s (Event.disconnect c)).1 evs).2, c ∉ inv := by
  have h0 : c ∉ (step s (Event.disconnect c)).1.consumers :=
    not_mem_removeConsumer_self _ _
  exact ⟨h0, (run_no_invocation c evs (step s (Event.disconnect c)).1 h0 hno).2⟩

/-- Witness for C9: consumer 2 disconnects from `{1, 2}`; a manual
update, an observed mutation, and a registration follow, and none of the
resulting broadcasts invokes consumer 2. -/
theorem detach_no_stale_invocations_witness :
    (∀ e ∈ [Event.manualUpdate, Event.attributeMutation, Event.register []],
      e ≠ Event.connect 2) ∧
    2 ∉ (step ⟨initialState, [1, 2]⟩ (Event.disconnect 2)).1.consumers ∧
    ∀ inv ∈ (run (step ⟨initialState, [1, 2]⟩ (Event.disconnect 2)).1
      [Event.manualUpdate, Event.attributeMutation, Event.register []]).2, 2 ∉ inv := by
  have hno : ∀ e ∈ [Event.manualUpdate, Event.attributeMutation, Event.register []],
      e ≠ Event.connect 2 := by
    intro e he
    simp only [List.mem_cons, List.not_mem_nil, or_false] at he
    rcases he with rfl | rfl | rfl <;> exact fun h => Event.noConfusion h
  have h := detach_no_stale_invocations ⟨initialState, [1, 2]⟩ 2
    [Event.manualUpdate, Event.attributeMutation, Event.register []] hno
  exact ⟨hno, h.1, h.2⟩

end Localize
